import Mathlib

/-!
Shallow embedding of the local-first synchronization engine of
`src/src/components/TechnologiesApi.tsx` (the `useTechnologiesApi` hook).

The engine state gathers the React state and refs that the hook closes over:
the in-memory collection (`technologies`), the pending-mutation map
(`pendingUpdates`, a JS `Map<number, Partial<Technology>>` modelled as an
insertion-ordered association list), `lastFetchTime`, the derived flag
`hasPendingChanges`, the active identity (`currentUser`), the single-flight
flag (`isSavingToApi`), and the localStorage cache (an association list from
string keys to record arrays).  Network I/O is modelled by passing the remote
response as an explicit argument; wall-clock time by explicit `now`/`today`
arguments.
-/

namespace TechTracker

/-- `status` enum of a `Technology` record. -/
inductive Status where
  | completed
  | inProgress
  | notStarted
deriving Repr, DecidableEq

/-- The `Technology` record interface (TechnologiesApi.tsx lines 5-19).
Optional interface fields are `Option`; required string fields are `String`
(the empty string standing for a cleared value, as in the source). -/
structure Technology where
  id : Nat
  title : String
  description : String
  status : Status
  notes : String
  category : Option String
  studyStartDate : String
  studyEndDate : String
  createdAt : Option String
  updatedAt : Option String
  userId : Option String
deriving Repr, DecidableEq

/-- A `Partial<Technology>` diff as stored in `pendingUpdates`: every field
optional, `none` meaning the key is absent from the object. -/
structure TechUpdate where
  title : Option String := none
  description : Option String := none
  status : Option Status := none
  notes : Option String := none
  category : Option String := none
  studyStartDate : Option String := none
  studyEndDate : Option String := none
deriving Repr, DecidableEq

/-- Insertion-ordered map `Map<number, Partial<Technology>>`:
`set` replaces the value at an existing key in place, else appends. -/
def mapSet : List (Nat × TechUpdate) → Nat → TechUpdate → List (Nat × TechUpdate)
  | [], k, v => [(k, v)]
  | (k', v') :: rest, k, v =>
    if k' == k then (k, v) :: rest else (k', v') :: mapSet rest k v

/-- `Map.delete`: removes the entry at the key, if present. -/
def mapDelete : List (Nat × TechUpdate) → Nat → List (Nat × TechUpdate)
  | [], _ => []
  | (k', v') :: rest, k => if k' == k then rest else (k', v') :: mapDelete rest k

/-- `Map.get`: value at the key, if present. -/
def lookupKey : List (Nat × TechUpdate) → Nat → Option TechUpdate
  | [], _ => none
  | (k', v') :: rest, k => if k' == k then some v' else lookupKey rest k

/-- Number of entries stored under a key (a JS `Map` keeps this at most 1). -/
def countKey (m : List (Nat × TechUpdate)) (k : Nat) : Nat :=
  (m.filter (fun p => p.1 == k)).length

/-- The localStorage slice the engine touches: string keys to record arrays. -/
abbrev Cache := List (String × List Technology)

def cacheSet : Cache → String → List Technology → Cache
  | [], k, v => [(k, v)]
  | (k', v') :: rest, k, v =>
    if k' == k then (k, v) :: rest else (k', v') :: cacheSet rest k v

def cacheGet : Cache → String → Option (List Technology)
  | [], _ => none
  | (k', v') :: rest, k => if k' == k then some v' else cacheGet rest k

/-- Engine state: React state plus refs of `useTechnologiesApi`. -/
structure EngineState where
  technologies : List Technology
  pendingUpdates : List (Nat × TechUpdate)
  lastFetchTime : Nat
  hasPendingChanges : Bool
  currentUser : Option String
  isSavingToApi : Bool
  cache : Cache
  errorMsg : Option String
  needsInitialFetch : Bool
deriving Repr, DecidableEq

/-- `getUserDataKey` (lines 83-85): per-identity localStorage namespace. -/
def getUserDataKey (currentUser : Option String) : String :=
  match currentUser with
  | some u => "techTrackerData_" ++ u
  | none => "techTrackerData"

/-- The 5-minute staleness threshold of `fetchTechnologies` (line 153). -/
def staleThreshold : Nat := 5 * 60 * 1000

/-- Outcome of the remote `GET` in `fetchTechnologies`: a successful
`{success:true, data:[...]}` payload, or any transport/HTTP/payload failure
(all of which reach the same `catch`). -/
inductive RemoteFetch where
  | success (data : List Technology)
  | failure (msg : String)
deriving Repr, DecidableEq

/-- What `fetchTechnologies` hands back to its caller: a returned array or a
rethrown error. -/
inductive FetchResult where
  | ok (techs : List Technology)
  | err (msg : String)
deriving Repr, DecidableEq

/-- Normalization applied to each fetched record (lines 184-191):
`studyStartDate: tech.studyStartDate || today`, `studyEndDate: tech.studyEndDate || ''`,
`notes: tech.notes || ''`, `category: tech.category || ''`, `userId: currentUser`. -/
def normalizeFetched (today : String) (user : String) (t : Technology) : Technology :=
  { t with
    studyStartDate := if t.studyStartDate = "" then today else t.studyStartDate
    category := some ((t.category).getD "")
    userId := some user }

/-- `fetchTechnologies(force)` (lines 138-231).  Returns the next engine
state, the value returned (or error rethrown) to the caller, and whether a
network request was issued. -/
def fetchTechnologies (force : Bool) (now : Nat) (today : String)
    (remote : RemoteFetch) (s : EngineState) :
    EngineState × FetchResult × Bool :=
  match s.currentUser with
  | none => (s, FetchResult.ok [], false)
  | some user =>
    if !force && s.technologies.length > 0 then
      (s, FetchResult.ok s.technologies, false)
    else if !force && now - s.lastFetchTime < staleThreshold then
      (s, FetchResult.ok s.technologies, false)
    else
      match remote with
      | RemoteFetch.success data =>
        let newData := data.map (normalizeFetched today user)
        ({ s with
            technologies := newData
            cache := cacheSet s.cache (getUserDataKey s.currentUser) newData
            lastFetchTime := now
            hasPendingChanges := false
            needsInitialFetch := false
            errorMsg := none },
          FetchResult.ok newData, true)
      | RemoteFetch.failure msg =>
        let s1 := { s with errorMsg := some msg }
        match cacheGet s.cache (getUserDataKey s.currentUser) with
        | some cached =>
          ({ s1 with technologies := cached, needsInitialFetch := false },
            FetchResult.ok cached, true)
        | none => (s1, FetchResult.err msg, true)

/-- `x || y` for an optional-string diff field against a string default:
`undefined || y = y`, `'' || y = y`, otherwise the diff value wins. -/
def strOr (a : Option String) (b : String) : String :=
  match a with
  | some v => if v = "" then b else v
  | none => b

/-- The merged record built by `updateTechnology` (lines 616-623):
`{...tech, ...updates, updatedAt: now, studyStartDate: updates.studyStartDate || tech.studyStartDate,
studyEndDate: updates.studyEndDate || tech.studyEndDate, userId: currentUser}`.
A spread only overrides fields present in `updates`. -/
def mergeTech (tech : Technology) (u : TechUpdate) (nowIso : String) (user : String) :
    Technology :=
  { id := tech.id
    title := u.title.getD tech.title
    description := u.description.getD tech.description
    status := u.status.getD tech.status
    notes := u.notes.getD tech.notes
    category := match u.category with
      | some c => some c
      | none => tech.category
    studyStartDate := strOr u.studyStartDate tech.studyStartDate
    studyEndDate := strOr u.studyEndDate tech.studyEndDate
    createdAt := tech.createdAt
    updatedAt := some nowIso
    userId := some user }

/-- `updateTechnology(id, updates)` (lines 607-645).  Throws when no user is
logged in or the id is unknown; otherwise applies the merged record to the
collection and write-through cache, and stores the raw `updates` diff in
`pendingUpdates` (`pendingUpdates.current.set(id, updates)`, line 633). -/
def updateTechnology (id : Nat) (u : TechUpdate) (nowIso : String) (s : EngineState) :
    EngineState × Except String Technology :=
  match s.currentUser with
  | none => (s, Except.error "must be logged in to update")
  | some user =>
    match s.technologies.find? (fun t => t.id == id) with
    | none => (s, Except.error "technology not found")
    | some tech =>
      let updatedTech := mergeTech tech u nowIso user
      let updatedTechnologies := s.technologies.map
        (fun t => if t.id == id then updatedTech else t)
      ({ s with
          technologies := updatedTechnologies
          cache := cacheSet s.cache (getUserDataKey s.currentUser) updatedTechnologies
          hasPendingChanges := true
          pendingUpdates := mapSet s.pendingUpdates id u },
        Except.ok updatedTech)

/-- `handleUserChange` (lines 87-100): on a `userChanged` event the hook sets
the new user, empties the collection, resets `lastFetchTime`, and marks an
initial fetch as needed; `pendingUpdates`, `hasPendingChanges` and the cache
are left untouched. -/
def handleUserChange (username : Option String) (s : EngineState) : EngineState :=
  { s with
    currentUser := username
    technologies := []
    lastFetchTime := 0
    needsInitialFetch := true }

/-- `savePendingUpdates` (lines 358-390).  `outcome id` tells whether the
`PUT` for that id succeeds.  Returns the next state and the list of ids sent
(`Promise.all` starts every request; a rejection does not cancel the rest).
If every send succeeds, each snapshot id is deleted from the map; if any send
fails, the `catch` runs before any deletion, so no entry is removed. -/
def savePendingUpdates (outcome : Nat → Bool) (s : EngineState) :
    EngineState × List Nat :=
  if s.pendingUpdates.length == 0 || s.isSavingToApi then (s, [])
  else
    let ids := s.pendingUpdates.map (fun p => p.1)
    if s.pendingUpdates.all (fun p => outcome p.1) then
      let pending := ids.foldl (fun m k => mapDelete m k) s.pendingUpdates
      ({ s with
          pendingUpdates := pending
          hasPendingChanges := decide (pending.length > 0)
          isSavingToApi := false },
        ids)
    else
      ({ s with hasPendingChanges := true, isSavingToApi := false }, ids)

/-- `syncWithApi` (lines 675-709): flush pending updates when the queue is
non-empty (`savePendingUpdates` swallows its own errors), then
`fetchTechnologies(true)`; on fetch success set `hasPendingChanges` to
`false` unconditionally; a rethrown fetch error propagates. -/
def syncWithApi (outcome : Nat → Bool) (now : Nat) (today : String)
    (remote : RemoteFetch) (s : EngineState) : EngineState × Except String Bool :=
  match s.currentUser with
  | none => (s, Except.error "must be logged in to sync")
  | some _ =>
    let s0 := { s with errorMsg := none }
    let s1 := if s0.pendingUpdates.length > 0 then (savePendingUpdates outcome s0).1 else s0
    match fetchTechnologies true now today remote s1 with
    | (s2, FetchResult.err msg, _) => ({ s2 with errorMsg := some msg }, Except.error msg)
    | (s2, FetchResult.ok _, _) =>
      ({ s2 with hasPendingChanges := false }, Except.ok true)

/-- Modelled from the spec: the field-wise merge of two pending diffs that
the coalescing guarantee describes ("a new local edit to the same id merges
(overwrites overlapping fields) into the existing entry"): the later diff
wins on the fields it mentions, earlier fields are retained. -/
def specMergeDiff (old later : TechUpdate) : TechUpdate :=
  { title := later.title.orElse (fun _ => old.title)
    description := later.description.orElse (fun _ => old.description)
    status := later.status.orElse (fun _ => old.status)
    notes := later.notes.orElse (fun _ => old.notes)
    category := later.category.orElse (fun _ => old.category)
    studyStartDate := later.studyStartDate.orElse (fun _ => old.studyStartDate)
    studyEndDate := later.studyEndDate.orElse (fun _ => old.studyEndDate) }

/-! ### Concrete fixtures for witnesses and counterexamples -/

def demoTech : Technology :=
  { id := 1
    title := "React"
    description := "frontend library"
    status := Status.notStarted
    notes := "start here"
    category := some "frontend"
    studyStartDate := "2026-01-01"
    studyEndDate := "2026-03-01"
    createdAt := none
    updatedAt := none
    userId := some "alice" }

def demoTech2 : Technology :=
  { demoTech with id := 2, title := "Vue" }

def demoState : EngineState :=
  { technologies := [demoTech, demoTech2]
    pendingUpdates := []
    lastFetchTime := 0
    hasPendingChanges := false
    currentUser := some "alice"
    isSavingToApi := false
    cache := [("techTrackerData_alice", [demoTech, demoTech2])]
    errorMsg := none
    needsInitialFetch := false }

/-- A cold-start state: logged in as "alice" with an empty collection. -/
def coldState : EngineState := { demoState with technologies := [], cache := [] }

/-- The derived-flag invariant of the C5 claim: `hasPendingChanges` is true
exactly when the Pending Mutation Queue is non-empty. -/
def pendingFlagConsistent (s : EngineState) : Prop :=
  s.hasPendingChanges = true ↔ s.pendingUpdates ≠ []

/-- A state mid-flush with one queued diff: the setting in which `syncWithApi`
skips its flush but still clears the flag. -/
def midFlushState : EngineState :=
  { demoState with
    pendingUpdates := [(1, { notes := some "wip" })]
    hasPendingChanges := true
    isSavingToApi := true }

/-! ### C3 fixtures: two queued diffs, one whose send succeeds and one whose
send fails. -/

def c3diffA : TechUpdate := { title := some "X" }

def c3diffB : TechUpdate := { notes := some "Y" }

def c3State : EngineState :=
  { demoState with
    pendingUpdates := [(1, c3diffA), (2, c3diffB)]
    hasPendingChanges := true }

def c3outcome : Nat → Bool := fun id => id == 1

/-! ### C2 fixtures: two edits to the same record touching disjoint fields. -/

def c2editA : TechUpdate := { title := some "Angular" }

def c2editB : TechUpdate := { status := some Status.completed }

/-! ### Map lemmas -/

theorem lookupKey_mapSet (m : List (Nat × TechUpdate)) (k : Nat) (v : TechUpdate) :
    lookupKey (mapSet m k v) k = some v := by
  induction m with
  | nil => simp [mapSet, lookupKey]
  | cons p rest ih =>
    obtain ⟨k', v'⟩ := p
    by_cases h : k' == k
    · simp [mapSet, lookupKey, h]
    · simp [mapSet, lookupKey, h, ih]

theorem countKey_cons (k' : Nat) (v' : TechUpdate) (rest : List (Nat × TechUpdate)) (k : Nat) :
    countKey ((k', v') :: rest) k = (if k' == k then 1 else 0) + countKey rest k := by
  by_cases h : k' == k
  · simp [countKey, List.filter, h]
    omega
  · simp [countKey, List.filter, h]

theorem countKey_mapSet (m : List (Nat × TechUpdate)) (k : Nat) (v : TechUpdate) :
    countKey (mapSet m k v) k = max (countKey m k) 1 := by
  induction m with
  | nil => simp [mapSet, countKey, List.filter]
  | cons p rest ih =>
    obtain ⟨k', v'⟩ := p
    by_cases h : k' == k
    · simp only [mapSet, h, if_true, countKey_cons, beq_self_eq_true]
      omega
    · simp only [mapSet, h, if_false, Bool.false_eq_true, countKey_cons, ih]
      omega

theorem mapSet_ne_nil (m : List (Nat × TechUpdate)) (k : Nat) (v : TechUpdate) :
    mapSet m k v ≠ [] := by
  cases m with
  | nil => simp [mapSet]
  | cons p rest =>
    obtain ⟨k', v'⟩ := p
    by_cases h : k' == k <;> simp [mapSet, h]

/-- Deleting every key of a map, in order, empties it (the all-success branch
of `savePendingUpdates`). -/
theorem foldl_mapDelete_self (m : List (Nat × TechUpdate)) :
    (m.map (fun p => p.1)).foldl (fun acc k => mapDelete acc k) m = [] := by
  induction m with
  | nil => rfl
  | cons p rest ih =>
    obtain ⟨k, v⟩ := p
    have hdel : mapDelete ((k, v) :: rest) k = rest := by simp [mapDelete]
    simpa [hdel] using ih

/-! ### `updateTechnology` unfolding and preservation lemmas -/

theorem updateTechnology_eq (s : EngineState) (user : String) (tech : Technology)
    (id : Nat) (u : TechUpdate) (nowIso : String)
    (h1 : s.currentUser = some user)
    (h2 : s.technologies.find? (fun t => t.id == id) = some tech) :
    updateTechnology id u nowIso s =
      ({ s with
          technologies := s.technologies.map
            (fun t => if t.id == id then mergeTech tech u nowIso user else t)
          cache := cacheSet s.cache (getUserDataKey s.currentUser)
            (s.technologies.map
              (fun t => if t.id == id then mergeTech tech u nowIso user else t))
          hasPendingChanges := true
          pendingUpdates := mapSet s.pendingUpdates id u },
        Except.ok (mergeTech tech u nowIso user)) := by
  unfold updateTechnology
  rw [h1, h2]

theorem find?_isSome_map_update (l : List Technology) (id : Nat) (t' : Technology)
    (ht : t'.id = id) (h : (l.find? (fun t => t.id == id)).isSome) :
    ((l.map (fun t => if t.id == id then t' else t)).find? (fun t => t.id == id)).isSome := by
  rw [List.find?_isSome] at h ⊢
  obtain ⟨x, hx, hpx⟩ := h
  refine ⟨if x.id == id then t' else x, List.mem_map_of_mem _ hx, ?_⟩
  simp only [hpx, if_true]
  simp [ht]

/-! ### Claims -/

/-- C8: flush runs are single-flight: a `savePendingUpdates` attempt that
starts while `isSavingToApi` is set returns immediately, sends nothing, and
leaves the whole engine state (in particular the Pending Mutation Queue)
exactly as it was. -/
theorem c8_single_flight (outcome : Nat → Bool) (s : EngineState)
    (h : s.isSavingToApi = true) :
    savePendingUpdates outcome s = (s, []) := by
  unfold savePendingUpdates
  rw [h]
  simp

/-- C8 witness: a concrete state mid-flush, on which the skipped attempt is a
no-op. -/
theorem c8_single_flight_witness :
    ({ demoState with
        pendingUpdates := [(1, { status := some Status.completed })]
        isSavingToApi := true } : EngineState).isSavingToApi = true
    ∧ savePendingUpdates (fun _ => true)
        { demoState with
          pendingUpdates := [(1, { status := some Status.completed })]
          isSavingToApi := true } =
      ({ demoState with
          pendingUpdates := [(1, { status := some Status.completed })]
          isSavingToApi := true }, []) :=
  ⟨rfl, c8_single_flight (fun _ => true) _ rfl⟩

/-- C10: `fetchTechnologies` with no active identity returns `[]` without
raising, performs no network call, and leaves the state (collection, queue,
`lastFetchTime`) untouched — whereas `updateTechnology` raises immediately
when no identity is active. -/
theorem c10_fetch_without_user (force : Bool) (now : Nat) (today : String)
    (remote : RemoteFetch) (s : EngineState) (h : s.currentUser = none) :
    fetchTechnologies force now today remote s = (s, FetchResult.ok [], false)
    ∧ ∀ id u nowIso,
        updateTechnology id u nowIso s = (s, Except.error "must be logged in to update") := by
  constructor
  · unfold fetchTechnologies
    rw [h]
  · intro id u nowIso
    unfold updateTechnology
    rw [h]

/-- C10 witness: the logged-out engine state, with a forced fetch against a
live remote. -/
theorem c10_fetch_without_user_witness :
    ({ demoState with currentUser := none } : EngineState).currentUser = none
    ∧ fetchTechnologies true 1000 "2026-02-02" (RemoteFetch.success [demoTech])
        { demoState with currentUser := none } =
      ({ demoState with currentUser := none }, FetchResult.ok [], false)
    ∧ updateTechnology 1 { status := some Status.completed } "2026-02-02T00:00:00Z"
        { demoState with currentUser := none } =
      ({ demoState with currentUser := none }, Except.error "must be logged in to update") :=
  ⟨rfl,
    (c10_fetch_without_user true 1000 "2026-02-02" (RemoteFetch.success [demoTech]) _ rfl).1,
    (c10_fetch_without_user true 1000 "2026-02-02" (RemoteFetch.success [demoTech]) _ rfl).2
      1 { status := some Status.completed } "2026-02-02T00:00:00Z"⟩

/-- C4 counterexample: switching the active identity from "alice" to "bob"
does NOT clear the Pending Mutation Queue — the diff recorded under "alice"
is still queued after the switch, refuting the claim that no pending diff of
the previous identity remains. -/
theorem c4_counterexample :
    (handleUserChange (some "bob")
        { demoState with
          pendingUpdates := [(1, { status := some Status.completed })]
          hasPendingChanges := true }).currentUser = some "bob"
    ∧ (handleUserChange (some "bob")
        { demoState with
          pendingUpdates := [(1, { status := some Status.completed })]
          hasPendingChanges := true }).technologies = []
    ∧ (handleUserChange (some "bob")
        { demoState with
          pendingUpdates := [(1, { status := some Status.completed })]
          hasPendingChanges := true }).pendingUpdates =
        [(1, { status := some Status.completed })]
    ∧ (handleUserChange (some "bob")
        { demoState with
          pendingUpdates := [(1, { status := some Status.completed })]
          hasPendingChanges := true }).pendingUpdates ≠ [] := by
  refine ⟨rfl, rfl, rfl, by decide⟩

/-- C4 (amended): on a user-change event the collection and `lastFetchTime`
are cleared and an initial fetch is marked as needed, but the Pending
Mutation Queue, the `hasPendingChanges` flag and the cache are left
untouched: diffs recorded under the previous identity remain queued. -/
theorem c4_user_change_partial_reset (username : Option String) (s : EngineState) :
    (handleUserChange username s).technologies = []
    ∧ (handleUserChange username s).lastFetchTime = 0
    ∧ (handleUserChange username s).currentUser = username
    ∧ (handleUserChange username s).needsInitialFetch = true
    ∧ (handleUserChange username s).pendingUpdates = s.pendingUpdates
    ∧ (handleUserChange username s).hasPendingChanges = s.hasPendingChanges
    ∧ (handleUserChange username s).cache = s.cache := by
  refine ⟨rfl, rfl, rfl, rfl, rfl, rfl, rfl⟩

/-- C9: `updateTechnology` treats an empty-string `studyStartDate` or
`studyEndDate` in the diff as absent: the merged record keeps the previous
value for those fields whenever the diff supplies `""` (or omits them), so a
non-empty date can never be cleared by a local update — unlike other fields
(e.g. `notes`, `title`), where the diff's value wins even when empty. -/
theorem c9_dates_not_clearable (s : EngineState) (id : Nat) (user : String)
    (tech : Technology)
    (h1 : s.currentUser = some user)
    (h2 : s.technologies.find? (fun t => t.id == id) = some tech)
    (hs : tech.studyStartDate ≠ "") (he : tech.studyEndDate ≠ "") :
    ∀ (u : TechUpdate) (nowIso : String),
      (updateTechnology id u nowIso s).2 = Except.ok (mergeTech tech u nowIso user)
      ∧ (u.studyStartDate = some "" →
          (mergeTech tech u nowIso user).studyStartDate = tech.studyStartDate)
      ∧ (u.studyEndDate = some "" →
          (mergeTech tech u nowIso user).studyEndDate = tech.studyEndDate)
      ∧ (mergeTech tech u nowIso user).studyStartDate ≠ ""
      ∧ (mergeTech tech u nowIso user).studyEndDate ≠ ""
      ∧ (∀ v, u.notes = some v → (mergeTech tech u nowIso user).notes = v)
      ∧ (∀ v, u.title = some v → (mergeTech tech u nowIso user).title = v) := by
  intro u nowIso
  refine ⟨by rw [updateTechnology_eq s user tech id u nowIso h1 h2], ?_, ?_, ?_, ?_, ?_, ?_⟩
  · intro hu
    simp [mergeTech, strOr, hu]
  · intro hu
    simp [mergeTech, strOr, hu]
  · show strOr u.studyStartDate tech.studyStartDate ≠ ""
    unfold strOr
    cases u.studyStartDate with
    | none => exact hs
    | some v =>
      by_cases hv : v = ""
      · simp [hv, hs]
      · simp [hv]
  · show strOr u.studyEndDate tech.studyEndDate ≠ ""
    unfold strOr
    cases u.studyEndDate with
    | none => exact he
    | some v =>
      by_cases hv : v = ""
      · simp [hv, he]
      · simp [hv]
  · intro v hv
    simp [mergeTech, hv]
  · intro v hv
    simp [mergeTech, hv]

/-- C9 witness: a diff carrying empty dates and an empty `notes` against a
record with non-empty dates: the dates survive, the notes are cleared. -/
theorem c9_dates_not_clearable_witness :
    demoState.currentUser = some "alice"
    ∧ demoState.technologies.find? (fun t => t.id == 1) = some demoTech
    ∧ demoTech.studyStartDate ≠ "" ∧ demoTech.studyEndDate ≠ ""
    ∧ ((updateTechnology 1
          { studyStartDate := some "", studyEndDate := some "", notes := some "" }
          "2026-02-02T00:00:00Z" demoState).2 =
        Except.ok (mergeTech demoTech
          { studyStartDate := some "", studyEndDate := some "", notes := some "" }
          "2026-02-02T00:00:00Z" "alice")
      ∧ (mergeTech demoTech
          { studyStartDate := some "", studyEndDate := some "", notes := some "" }
          "2026-02-02T00:00:00Z" "alice").studyStartDate = demoTech.studyStartDate
      ∧ (mergeTech demoTech
          { studyStartDate := some "", studyEndDate := some "", notes := some "" }
          "2026-02-02T00:00:00Z" "alice").studyEndDate = demoTech.studyEndDate
      ∧ (mergeTech demoTech
          { studyStartDate := some "", studyEndDate := some "", notes := some "" }
          "2026-02-02T00:00:00Z" "alice").notes = "") := by
  have h := c9_dates_not_clearable demoState 1 "alice" demoTech rfl (by decide)
    (by decide) (by decide)
    { studyStartDate := some "", studyEndDate := some "", notes := some "" }
    "2026-02-02T00:00:00Z"
  exact ⟨rfl, by decide, by decide, by decide,
    h.1, h.2.1 rfl, h.2.2.1 rfl, h.2.2.2.2.2.1 "" rfl⟩

/-- C7: with a populated cache backing the collection, a failing remote fetch
(any `force`) leaves the collection and the cached copy unchanged, returns
the cached records instead of rethrowing, and — whenever the network branch
was actually taken — records the error message. -/
theorem c7_fetch_failure_keeps_cache (s : EngineState) (user msg : String)
    (force : Bool) (now : Nat) (today : String)
    (h1 : s.currentUser = some user)
    (h2 : cacheGet s.cache (getUserDataKey s.currentUser) = some s.technologies)
    (h3 : s.technologies ≠ []) :
    (fetchTechnologies force now today (RemoteFetch.failure msg) s).1.technologies
        = s.technologies
    ∧ cacheGet (fetchTechnologies force now today (RemoteFetch.failure msg) s).1.cache
        (getUserDataKey s.currentUser) = some s.technologies
    ∧ (fetchTechnologies force now today (RemoteFetch.failure msg) s).2.1
        = FetchResult.ok s.technologies
    ∧ ((fetchTechnologies force now today (RemoteFetch.failure msg) s).2.2 = true →
        (fetchTechnologies force now today (RemoteFetch.failure msg) s).1.errorMsg
          = some msg) := by
  have hlen : 0 < s.technologies.length := List.length_pos.mpr h3
  rw [h1] at h2
  cases force with
  | true =>
    have hcond1 : (!true && decide (s.technologies.length > 0)) = false := by simp
    have hcond2 : (!true && decide (now - s.lastFetchTime < staleThreshold)) = false := by
      simp
    simp only [fetchTechnologies, h1, hcond1, hcond2, Bool.false_eq_true, if_false, h2]
    simp [h2]
  | false =>
    have hcond : (!false && decide (s.technologies.length > 0)) = true := by simp [hlen]
    simp only [fetchTechnologies, h1, hcond, if_true]
    simp [h2]

/-- C7 witness: a populated two-record cache and a timed-out forced fetch. -/
theorem c7_fetch_failure_keeps_cache_witness :
    demoState.currentUser = some "alice"
    ∧ cacheGet demoState.cache (getUserDataKey demoState.currentUser)
        = some demoState.technologies
    ∧ demoState.technologies ≠ []
    ∧ (fetchTechnologies true 1000 "2026-02-02" (RemoteFetch.failure "timeout")
          demoState).1.technologies = demoState.technologies
    ∧ (fetchTechnologies true 1000 "2026-02-02" (RemoteFetch.failure "timeout")
          demoState).2.1 = FetchResult.ok demoState.technologies := by
  have h := c7_fetch_failure_keeps_cache demoState "alice" "timeout" true 1000
    "2026-02-02" rfl (by decide) (by decide)
  exact ⟨rfl, by decide, by decide, h.1, h.2.2.1⟩

/-- Unfolding of a forced fetch that succeeds: the snapshot replaces the
collection and write-through cache, `lastFetchTime` is stamped and
`hasPendingChanges` is reset; `pendingUpdates` is not touched. -/
theorem fetchTechnologies_force_success (s : EngineState) (user : String)
    (data : List Technology) (now : Nat) (today : String)
    (h1 : s.currentUser = some user) :
    fetchTechnologies true now today (RemoteFetch.success data) s =
      ({ s with
          technologies := data.map (normalizeFetched today user)
          cache := cacheSet s.cache (getUserDataKey s.currentUser)
            (data.map (normalizeFetched today user))
          lastFetchTime := now
          hasPendingChanges := false
          needsInitialFetch := false
          errorMsg := none },
        FetchResult.ok (data.map (normalizeFetched today user)), true) := by
  have hcond1 : (!true && decide (s.technologies.length > 0)) = false := by simp
  have hcond2 : (!true && decide (now - s.lastFetchTime < staleThreshold)) = false := by
    simp
  simp only [fetchTechnologies, h1, hcond1, hcond2, Bool.false_eq_true, if_false]

/-- C6: the staleness gate.  (a) A non-forced `fetchTechnologies` against a
non-empty collection within the threshold window returns the local collection
unchanged with no network call.  (b) From a cold state (empty collection,
stale `lastFetchTime`), a first non-forced call issues a network request and
a second non-forced call within the threshold of the first issues none —
exactly one network call for the pair. -/
theorem c6_staleness_gate :
    (∀ (s : EngineState) (user : String) (now : Nat) (today : String)
        (remote : RemoteFetch),
      s.currentUser = some user → s.technologies ≠ [] →
      now - s.lastFetchTime < staleThreshold →
      fetchTechnologies false now today remote s = (s, FetchResult.ok s.technologies, false))
    ∧ (∀ (s : EngineState) (user : String) (t1 t2 : Nat) (today : String)
          (data : List Technology) (remote2 : RemoteFetch),
      s.currentUser = some user → s.technologies = [] →
      staleThreshold ≤ t1 - s.lastFetchTime →
      t2 - t1 < staleThreshold →
      (fetchTechnologies false t1 today (RemoteFetch.success data) s).2.2 = true
      ∧ (fetchTechnologies false t2 today remote2
          (fetchTechnologies false t1 today (RemoteFetch.success data) s).1).2.2 = false) := by
  constructor
  · intro s user now today remote h1 hne _
    have hlen : 0 < s.technologies.length := List.length_pos.mpr hne
    have hcond : (!false && decide (s.technologies.length > 0)) = true := by simp [hlen]
    simp only [fetchTechnologies, h1, hcond, if_true]
  · intro s user t1 t2 today data remote2 h1 hempty hstale ht2
    have hnot : ¬(t1 - s.lastFetchTime < staleThreshold) := Nat.not_lt.mpr hstale
    have hc1 : (!false && decide (s.technologies.length > 0)) = false := by simp [hempty]
    have hc2 : (!false && decide (t1 - s.lastFetchTime < staleThreshold)) = false := by
      simp [hnot]
    constructor
    · simp only [fetchTechnologies, h1, hc1, hc2, Bool.false_eq_true, if_false]
    · simp only [fetchTechnologies, h1, hc1, hc2, Bool.false_eq_true, if_false]
      by_cases hd : data = []
      · have hc3 : (!false && decide ((data.map (normalizeFetched today user)).length > 0))
            = false := by simp [hd]
        have hc4 : (!false && decide (t2 - t1 < staleThreshold)) = true := by simp [ht2]
        simp only [fetchTechnologies, hc3, hc4, Bool.false_eq_true, if_false, if_true]
      · have hlen : 0 < data.length := List.length_pos.mpr hd
        have hc3 : (!false && decide ((data.map (normalizeFetched today user)).length > 0))
            = true := by simp [hlen]
        simp only [fetchTechnologies, hc3, if_true]

/-- C6 witness: part (a) on a fresh populated state; part (b) on a cold state
with two non-forced calls 100 ms apart, the second against a dead remote. -/
theorem c6_staleness_gate_witness :
    fetchTechnologies false 1000 "2026-02-02" (RemoteFetch.failure "down") demoState
      = (demoState, FetchResult.ok demoState.technologies, false)
    ∧ (fetchTechnologies false 400000 "2026-02-02" (RemoteFetch.success [demoTech])
        coldState).2.2 = true
    ∧ (fetchTechnologies false 400100 "2026-02-02" (RemoteFetch.failure "down")
        (fetchTechnologies false 400000 "2026-02-02" (RemoteFetch.success [demoTech])
          coldState).1).2.2 = false := by
  refine ⟨c6_staleness_gate.1 demoState "alice" 1000 "2026-02-02"
    (RemoteFetch.failure "down") rfl (by decide) (by decide), ?_, ?_⟩
  · exact (c6_staleness_gate.2 coldState "alice" 400000 400100 "2026-02-02" [demoTech]
      (RemoteFetch.failure "down") rfl rfl (by decide) (by decide)).1
  · exact (c6_staleness_gate.2 coldState "alice" 400000 400100 "2026-02-02" [demoTech]
      (RemoteFetch.failure "down") rfl rfl (by decide) (by decide)).2

/-- C1 (the code at the failing input): with a pending diff
`{status: completed}` queued for record 1, a successful forced fetch whose
snapshot still carries `status: "not-started"` replaces the collection
wholesale — the record's status after the snapshot is `not-started`, not the
pending diff's `completed`, and `hasPendingChanges` is reset to `false`
although the diff is still queued. -/
theorem c1_snapshot_discards_pending_diff :
    lookupKey ({ demoState with
        pendingUpdates := [(1, { status := some Status.completed })]
        hasPendingChanges := true } : EngineState).pendingUpdates 1
      = some { status := some Status.completed }
    ∧ ((fetchTechnologies true 1000 "2026-02-02"
          (RemoteFetch.success [demoTech, demoTech2])
          { demoState with
            pendingUpdates := [(1, { status := some Status.completed })]
            hasPendingChanges := true }).1.technologies.find?
          (fun t => t.id == 1)).map Technology.status = some Status.notStarted
    ∧ (fetchTechnologies true 1000 "2026-02-02"
          (RemoteFetch.success [demoTech, demoTech2])
          { demoState with
            pendingUpdates := [(1, { status := some Status.completed })]
            hasPendingChanges := true }).1.pendingUpdates
        = [(1, { status := some Status.completed })]
    ∧ (fetchTechnologies true 1000 "2026-02-02"
          (RemoteFetch.success [demoTech, demoTech2])
          { demoState with
            pendingUpdates := [(1, { status := some Status.completed })]
            hasPendingChanges := true }).1.hasPendingChanges = false := by
  refine ⟨rfl, ?_, rfl, rfl⟩
  decide

/-- `savePendingUpdates` while a flush is already in progress is a no-op
(the guard at line 359). -/
theorem savePendingUpdates_skip_of_isSaving (outcome : Nat → Bool) (s : EngineState)
    (h : s.isSavingToApi = true) :
    savePendingUpdates outcome s = (s, []) := by
  unfold savePendingUpdates
  rw [h]
  simp

/-- `syncWithApi` when another flush is already in progress: the inner
`savePendingUpdates` is skipped by the single-flight guard, the forced fetch
succeeds, and `hasPendingChanges` is reset to `false` although the queue was
never drained. -/
theorem syncWithApi_flag_reset (outcome : Nat → Bool) (s : EngineState) (user : String)
    (data : List Technology) (now : Nat) (today : String)
    (h1 : s.currentUser = some user) (hsav : s.isSavingToApi = true)
    (hq : s.pendingUpdates ≠ []) :
    (syncWithApi outcome now today (RemoteFetch.success data) s).1.hasPendingChanges = false
    ∧ (syncWithApi outcome now today (RemoteFetch.success data) s).1.pendingUpdates
        = s.pendingUpdates := by
  obtain ⟨tec, pend, lft, flag, cu, sav, cac, em, nif⟩ := s
  replace h1 : cu = some user := h1
  replace hsav : sav = true := hsav
  replace hq : pend ≠ [] := hq
  subst h1
  subst hsav
  have hlen : 0 < pend.length := List.length_pos.mpr hq
  have hskip := savePendingUpdates_skip_of_isSaving outcome
    ⟨tec, pend, lft, flag, some user, true, cac, none, nif⟩ rfl
  have hfetch := fetchTechnologies_force_success
    ⟨tec, pend, lft, flag, some user, true, cac, none, nif⟩ user data now today rfl
  simp only [syncWithApi, if_pos hlen, hskip, hfetch]
  exact ⟨trivial, trivial⟩

/-- C5 counterexample: starting from a consistent state, one local edit puts
the invariant in force (flag true, queue non-empty), but a subsequent
successful forced fetch resets `hasPendingChanges` to `false` while the
queue still holds the edit's diff — refuting the claimed invariant. -/
theorem c5_counterexample :
    ((updateTechnology 1 { status := some Status.completed } "2026-02-02T00:00:00Z"
        demoState).1.hasPendingChanges = true
      ∧ (updateTechnology 1 { status := some Status.completed } "2026-02-02T00:00:00Z"
          demoState).1.pendingUpdates ≠ [])
    ∧ (fetchTechnologies true 2000 "2026-02-02"
        (RemoteFetch.success [demoTech, demoTech2])
        (updateTechnology 1 { status := some Status.completed } "2026-02-02T00:00:00Z"
          demoState).1).1.hasPendingChanges = false
    ∧ (fetchTechnologies true 2000 "2026-02-02"
        (RemoteFetch.success [demoTech, demoTech2])
        (updateTechnology 1 { status := some Status.completed } "2026-02-02T00:00:00Z"
          demoState).1).1.pendingUpdates ≠ [] := by
  refine ⟨⟨rfl, ?_⟩, rfl, ?_⟩ <;> decide

/-- C5 (amended): `hasPendingChanges = (queue non-empty)` is established by a
local edit and preserved by every flush, but a successful forced fetch — and
a `syncWithApi` whose flush was skipped by the single-flight guard — set the
flag to `false` while leaving the queue untouched, so the flag can read
`false` while entries are still queued. -/
theorem c5_flag_tracking :
    (∀ (id : Nat) (u : TechUpdate) (nowIso : String) (s : EngineState),
      pendingFlagConsistent s → pendingFlagConsistent (updateTechnology id u nowIso s).1)
    ∧ (∀ (outcome : Nat → Bool) (s : EngineState),
      pendingFlagConsistent s → pendingFlagConsistent (savePendingUpdates outcome s).1)
    ∧ (∀ (s : EngineState) (user : String) (data : List Technology) (now : Nat)
          (today : String),
      s.currentUser = some user → s.pendingUpdates ≠ [] →
      (fetchTechnologies true now today (RemoteFetch.success data) s).1.hasPendingChanges
          = false
      ∧ (fetchTechnologies true now today (RemoteFetch.success data) s).1.pendingUpdates
          = s.pendingUpdates)
    ∧ (∀ (outcome : Nat → Bool) (s : EngineState) (user : String)
          (data : List Technology) (now : Nat) (today : String),
      s.currentUser = some user → s.isSavingToApi = true → s.pendingUpdates ≠ [] →
      (syncWithApi outcome now today (RemoteFetch.success data) s).1.hasPendingChanges
          = false
      ∧ (syncWithApi outcome now today (RemoteFetch.success data) s).1.pendingUpdates
          = s.pendingUpdates) := by
  refine ⟨?_, ?_, ?_, ?_⟩
  · intro id u nowIso s hs
    unfold updateTechnology
    cases hcu : s.currentUser with
    | none => exact hs
    | some user =>
      cases hf : s.technologies.find? (fun t => t.id == id) with
      | none => exact hs
      | some tech =>
        constructor
        · intro _
          exact mapSet_ne_nil s.pendingUpdates id u
        · intro _
          rfl
  · intro outcome s hs
    unfold savePendingUpdates
    by_cases hguard : (s.pendingUpdates.length == 0 || s.isSavingToApi) = true
    · rw [if_pos hguard]
      exact hs
    · rw [if_neg hguard]
      have hq : s.pendingUpdates ≠ [] := by
        intro habs
        apply hguard
        simp [habs]
      by_cases hall : s.pendingUpdates.all (fun p => outcome p.1) = true
      · rw [if_pos hall]
        constructor
        · intro hflag
          simp only [foldl_mapDelete_self] at hflag
          cases hflag
        · intro hne
          simp only [foldl_mapDelete_self] at hne
          exact absurd rfl hne
      · rw [if_neg hall]
        exact ⟨fun _ => hq, fun _ => rfl⟩
  · intro s user data now today h1 hq
    rw [fetchTechnologies_force_success s user data now today h1]
    exact ⟨rfl, rfl⟩
  · intro outcome s user data now today h1 hsav hq
    exact syncWithApi_flag_reset outcome s user data now today h1 hsav hq

/-- C5 witness: the invariant-transfer conjunct applied to a concrete edit on
a consistent state, and the fetch conjunct applied right after it. -/
theorem c5_flag_tracking_witness :
    pendingFlagConsistent demoState
    ∧ pendingFlagConsistent
        (updateTechnology 1 { notes := some "soon" } "2026-02-02T00:00:00Z" demoState).1
    ∧ ((fetchTechnologies true 2000 "2026-02-02" (RemoteFetch.success [demoTech])
          (updateTechnology 1 { notes := some "soon" } "2026-02-02T00:00:00Z"
            demoState).1).1.hasPendingChanges = false
      ∧ (fetchTechnologies true 2000 "2026-02-02" (RemoteFetch.success [demoTech])
          (updateTechnology 1 { notes := some "soon" } "2026-02-02T00:00:00Z"
            demoState).1).1.pendingUpdates =
        (updateTechnology 1 { notes := some "soon" } "2026-02-02T00:00:00Z"
            demoState).1.pendingUpdates)
    ∧ ((syncWithApi (fun _ => true) 2000 "2026-02-02" (RemoteFetch.success [demoTech])
          midFlushState).1.hasPendingChanges = false
      ∧ (syncWithApi (fun _ => true) 2000 "2026-02-02" (RemoteFetch.success [demoTech])
          midFlushState).1.pendingUpdates = midFlushState.pendingUpdates) := by
  have hcons : pendingFlagConsistent demoState := by
    constructor
    · intro h
      cases h
    · intro h
      exact absurd rfl h
  refine ⟨hcons, ?_, ?_, ?_⟩
  · exact c5_flag_tracking.1 1 { notes := some "soon" } "2026-02-02T00:00:00Z" demoState
      hcons
  · exact c5_flag_tracking.2.2.1
      (updateTechnology 1 { notes := some "soon" } "2026-02-02T00:00:00Z" demoState).1
      "alice" [demoTech] 2000 "2026-02-02" (by decide) (by decide)
  · exact c5_flag_tracking.2.2.2 (fun _ => true) midFlushState "alice" [demoTech] 2000
      "2026-02-02" rfl rfl (by decide)

/-- C3 counterexample: in a flush where the send for id 1 succeeds and the
send for id 2 fails, both entries are sent, but the queue afterwards still
contains the *succeeded* entry (id 1) as well — refuting the claim that
after the flush the queue contains exactly the failed entries. -/
theorem c3_counterexample :
    c3outcome 1 = true ∧ c3outcome 2 = false
    ∧ (savePendingUpdates c3outcome c3State).2 = [1, 2]
    ∧ (savePendingUpdates c3outcome c3State).1.pendingUpdates = [(1, c3diffA), (2, c3diffB)]
    ∧ lookupKey (savePendingUpdates c3outcome c3State).1.pendingUpdates 1 = some c3diffA := by
  refine ⟨rfl, rfl, ?_, ?_, ?_⟩ <;> decide

/-- C3 (amended): acknowledgement is all-or-nothing, not per-entry.  Every
queued entry is sent (`Promise.all` fans out all requests); if every send
succeeds, every entry is removed and `hasPendingChanges` clears, but if any
send fails, the whole queue — succeeded entries included — remains exactly
as it was and `hasPendingChanges` stays `true`. -/
theorem c3_flush_all_or_nothing (outcome : Nat → Bool) (s : EngineState)
    (hq : s.pendingUpdates ≠ []) (hf : s.isSavingToApi = false) :
    (savePendingUpdates outcome s).2 = s.pendingUpdates.map (fun p => p.1)
    ∧ (s.pendingUpdates.all (fun p => outcome p.1) = true →
        (savePendingUpdates outcome s).1.pendingUpdates = []
        ∧ (savePendingUpdates outcome s).1.hasPendingChanges = false)
    ∧ (s.pendingUpdates.all (fun p => outcome p.1) = false →
        (savePendingUpdates outcome s).1.pendingUpdates = s.pendingUpdates
        ∧ (savePendingUpdates outcome s).1.hasPendingChanges = true) := by
  have hguard : (s.pendingUpdates.length == 0 || s.isSavingToApi) = false := by
    simp [hf, hq]
  unfold savePendingUpdates
  rw [hguard]
  simp only [Bool.false_eq_true, if_false]
  by_cases hall : s.pendingUpdates.all (fun p => outcome p.1) = true
  · rw [if_pos hall]
    refine ⟨rfl, fun _ => ?_, fun hfalse => ?_⟩
    · constructor
      · exact foldl_mapDelete_self s.pendingUpdates
      · simp only [foldl_mapDelete_self]
        rfl
    · rw [hall] at hfalse
      cases hfalse
  · rw [if_neg hall]
    refine ⟨rfl, fun htrue => absurd htrue hall, fun _ => ⟨rfl, rfl⟩⟩

/-- C3 witness: the amended behavior at the concrete mixed-outcome flush. -/
theorem c3_flush_all_or_nothing_witness :
    c3State.pendingUpdates ≠ []
    ∧ c3State.isSavingToApi = false
    ∧ (c3State.pendingUpdates.all (fun p => c3outcome p.1)) = false
    ∧ (savePendingUpdates c3outcome c3State).2
        = c3State.pendingUpdates.map (fun p => p.1)
    ∧ (savePendingUpdates c3outcome c3State).1.pendingUpdates = c3State.pendingUpdates
    ∧ (savePendingUpdates c3outcome c3State).1.hasPendingChanges = true := by
  have h := c3_flush_all_or_nothing c3outcome c3State (by decide) rfl
  exact ⟨by decide, rfl, by decide, h.1, (h.2.2 (by decide)).1, (h.2.2 (by decide)).2⟩

/-- C2 counterexample: after editing record 1's title and then its status
(no flush in between), the queue holds exactly one entry for id 1 — but that
entry is the *last* diff alone, not the field-wise merge: the first edit's
`title` field has been dropped from the entry. -/
theorem c2_counterexample :
    (updateTechnology 1 c2editB "t2"
        (updateTechnology 1 c2editA "t1" demoState).1).1.pendingUpdates = [(1, c2editB)]
    ∧ lookupKey (updateTechnology 1 c2editB "t2"
        (updateTechnology 1 c2editA "t1" demoState).1).1.pendingUpdates 1 = some c2editB
    ∧ (specMergeDiff c2editA c2editB).title = some "Angular"
    ∧ c2editB.title = none
    ∧ lookupKey (updateTechnology 1 c2editB "t2"
          (updateTechnology 1 c2editA "t1" demoState).1).1.pendingUpdates 1
        ≠ some (specMergeDiff c2editA c2editB) := by
  refine ⟨?_, ?_, rfl, rfl, ?_⟩ <;> decide

/-- C2 (amended): for any non-empty sequence of local edits to the same
existing id with no flush in between, the Pending Mutation Queue contains
exactly one entry for that id, and that entry equals the *last* diff alone —
each later edit replaces the queued entry wholesale, so fields mentioned
only by earlier edits are dropped from the entry (though they were applied
to the local collection). -/
theorem c2_last_edit_wins (user : String) (id : Nat) (nowIso : String) :
    ∀ (us : List TechUpdate) (s : EngineState), us ≠ [] →
      s.currentUser = some user →
      (s.technologies.find? (fun t => t.id == id)).isSome →
      countKey s.pendingUpdates id ≤ 1 →
      countKey
          (us.foldl (fun st u => (updateTechnology id u nowIso st).1) s).pendingUpdates id
        = 1
      ∧ lookupKey
          (us.foldl (fun st u => (updateTechnology id u nowIso st).1) s).pendingUpdates id
        = us.getLast? := by
  intro us
  induction us with
  | nil => exact fun s h => absurd rfl h
  | cons u us ih =>
    intro s _ h1 h2 h3
    obtain ⟨tech, htech⟩ := Option.isSome_iff_exists.mp h2
    have hid : (mergeTech tech u nowIso user).id = id := by
      have := List.find?_some htech
      simpa [mergeTech] using this
    have hstate : (updateTechnology id u nowIso s).1 =
        { s with
          technologies := s.technologies.map
            (fun t => if t.id == id then mergeTech tech u nowIso user else t)
          cache := cacheSet s.cache (getUserDataKey s.currentUser)
            (s.technologies.map
              (fun t => if t.id == id then mergeTech tech u nowIso user else t))
          hasPendingChanges := true
          pendingUpdates := mapSet s.pendingUpdates id u } := by
      rw [updateTechnology_eq s user tech id u nowIso h1 htech]
    have hcnt1 : countKey (mapSet s.pendingUpdates id u) id = 1 := by
      rw [countKey_mapSet]
      omega
    cases us with
    | nil =>
      rw [List.foldl_cons, List.foldl_nil, hstate]
      refine ⟨hcnt1, ?_⟩
      rw [lookupKey_mapSet]
      rfl
    | cons u2 us2 =>
      rw [List.foldl_cons, List.getLast?_cons_cons]
      refine ih (updateTechnology id u nowIso s).1 (by simp) ?_ ?_ ?_
      · rw [hstate]
        exact h1
      · rw [hstate]
        exact find?_isSome_map_update s.technologies id (mergeTech tech u nowIso user) hid h2
      · rw [hstate]
        exact hcnt1.le

/-- C2 witness: the amended statement at the concrete two-edit sequence —
one entry for id 1, equal to the last diff. -/
theorem c2_last_edit_wins_witness :
    ([c2editA, c2editB] : List TechUpdate) ≠ []
    ∧ demoState.currentUser = some "alice"
    ∧ (demoState.technologies.find? (fun t => t.id == 1)).isSome
    ∧ countKey demoState.pendingUpdates 1 ≤ 1
    ∧ (countKey
          ([c2editA, c2editB].foldl
            (fun st u => (updateTechnology 1 u "t" st).1) demoState).pendingUpdates 1 = 1
      ∧ lookupKey
          ([c2editA, c2editB].foldl
            (fun st u => (updateTechnology 1 u "t" st).1) demoState).pendingUpdates 1
        = [c2editA, c2editB].getLast?) := by
  refine ⟨by decide, rfl, by decide, by decide, ?_⟩
  exact c2_last_edit_wins "alice" 1 "t" [c2editA, c2editB] demoState (by decide) rfl
    (by decide) (by decide)

end TechTracker
